import Mathlib

/-!
Verification development for the FishFeeder embedded controller
(`picovoice_demo_mic.c`): the 8×8 LED-matrix renderer, the glyph table and
its lookup, the physical-row rotation, the mode state machine, the servo
(actuator) control loop, the PWM release profiles, and the button display
loop with its debounce.

Machine integers are modelled as `Nat` (with `% 256` where the C code
truncates to a byte) and `Int` where the C uses a signed `int`. Hardware
side effects (sysfs writes, sleeps, I2C transactions) are modelled as
event traces; the background threads are modelled as explicit loops over
a state record, with fuel bounding the iteration count where the C loop
is a `while`.
-/

namespace FishFeeder

/-! ## Glyph table (`matrixData matrix[]`, lines 343–363) -/

/-- One entry of the glyph table: a displayable symbol, its 8 row
bitmasks, and its width in columns (`matrixData`). -/
structure matrixData where
  digit : Char
  rowBitArr : List Nat
  cols : Nat
  deriving DecidableEq, Repr

/-- `matrix[]`: the 13-entry static glyph table, transcribed byte for
byte from the C initializer. -/
def matrix : List matrixData := [
  ⟨' ', [0x00, 0x00, 0x00, 0x00, 0x00, 0x00, 0x00, 0x00], 4⟩,
  ⟨'0', [0x20, 0x50, 0x50, 0x50, 0x50, 0x50, 0x20, 0x00], 4⟩,
  ⟨'1', [0x20, 0x30, 0x20, 0x20, 0x20, 0x20, 0x70, 0x00], 4⟩,
  ⟨'2', [0x20, 0x50, 0x40, 0x20, 0x20, 0x10, 0x70, 0x00], 4⟩,
  ⟨'3', [0x30, 0x40, 0x40, 0x70, 0x40, 0x40, 0x30, 0x00], 4⟩,
  ⟨'4', [0x40, 0x60, 0x50, 0x50, 0x70, 0x40, 0x40, 0x00], 4⟩,
  ⟨'5', [0x70, 0x10, 0x10, 0x70, 0x40, 0x50, 0x20, 0x00], 4⟩,
  ⟨'6', [0x60, 0x10, 0x10, 0x30, 0x50, 0x50, 0x20, 0x00], 4⟩,
  ⟨'7', [0x70, 0x40, 0x40, 0x40, 0x20, 0x20, 0x20, 0x00], 4⟩,
  ⟨'8', [0x20, 0x50, 0x50, 0x20, 0x50, 0x50, 0x20, 0x00], 4⟩,
  ⟨'9', [0x20, 0x50, 0x50, 0x60, 0x40, 0x40, 0x30, 0x00], 4⟩,
  ⟨'.', [0x00, 0x00, 0x00, 0x00, 0x00, 0x00, 0x00, 0x40], 1⟩,
  ⟨'M', [0x50, 0x70, 0x70, 0x50, 0x50, 0x50, 0x50, 0x00], 4⟩]

/-- Row `i` of a glyph, as the C reads `rowBitArr[i]` (the indices used
are always `0 ≤ i < 8`). -/
def rowAt (md : matrixData) (i : Fin 8) : Nat := md.rowBitArr.getD i.val 0

/-- Result of the table scan in `searchForHexData`. The C loop stops
when it meets an entry whose `digit` is `EMPTY` (the NUL character) and
then returns `NULL` (`sentinel` here); if the target is met first the
entry's address is returned (`found`); if the scan walks past the last
entry without meeting either, the C reads out of the array's bounds —
the bounds-checked embedding signals that as `outOfBounds`. -/
inductive LookupResult where
  | found : matrixData → LookupResult
  | sentinel : LookupResult
  | outOfBounds : LookupResult
  deriving DecidableEq, Repr

/-- The scan loop of `searchForHexData`: test the loop guard
`matrix[i].digit != EMPTY` first, then the body's equality test. -/
def scanAux (objectMatrix : Char) : List matrixData → LookupResult
  | [] => .outOfBounds
  | e :: rest =>
    if e.digit = Char.ofNat 0 then .sentinel
    else if e.digit = objectMatrix then .found e
    else scanAux objectMatrix rest

/-- `searchForHexData` (lines 365–372): linear scan of the glyph table. -/
def searchForHexData (objectMatrix : Char) : LookupResult :=
  scanAux objectMatrix matrix

/-- A symbol is in the table when some entry carries it. -/
def inTable (c : Char) : Prop := ∃ e ∈ matrix, e.digit = c

instance (c : Char) : Decidable (inTable c) := by
  unfold inTable; infer_instance

/-! ## Row shifting and the physical-row transform -/

/-- `shiftLeftOnMatrixBy` (lines 374–382): a nonnegative amount is a
right bit-shift, a negative amount a left shift; the result is stored
into a byte, hence the `% 256` truncation on the left.  Row values fed
to it are the table bytes, all `< 256`. -/
def shiftLeftOnMatrixBy (shiftAmountInBytes : Int) (rowValue : Nat) : Nat :=
  if 0 ≤ shiftAmountInBytes then rowValue >>> shiftAmountInBytes.toNat
  else (rowValue <<< (-shiftAmountInBytes).toNat) % 256

/-- `warpFrame` (lines 384–387): the physical-row transform
`(logicalFrame >> 1) | (logicalFrame << 7)` truncated to the
`unsigned char` return type. -/
def warpFrame (logicalFrame : Nat) : Nat :=
  ((logicalFrame >>> 1) ||| (logicalFrame <<< 7)) % 256

/-- The inverse transform: 8-bit rotate-left-by-one. -/
def rotateLeft8 (b : Nat) : Nat :=
  ((b <<< 1) ||| (b >>> 7)) % 256

/-! ## Mode state machine -/

/-- `mode` is initialized to 0 (line 63). -/
def modeInit : Int := 0

/-- `switchMode` (lines 431–441): cyclic successor 0→1→2→0; any other
value falls through every branch unchanged. -/
def switchMode (mode : Int) : Int :=
  if mode = 0 then 1
  else if mode = 1 then 2
  else if mode = 2 then 0
  else mode

/-! ## Matrix renderer (`displayMatrix`, lines 401–423)

A logical frame is the content of `logicalFrameArr`: 8 row bitmasks,
indexed by row. The loop of `displayMatrix` walks the columns, consuming
one character of the display string per iteration (the blank glyph once
the string is exhausted, as `*display == EMPTY` then), ORing the shifted
glyph rows into the frame. A failed glyph lookup makes
`callMatrixObject` dereference `NULL`; the embedding signals that as
`none`. The C `for` loop advances `col` by the consumed glyph's width;
the embedding uses fuel to bound the iteration count, enough fuel being
available whenever every consumed glyph has positive width. -/

/-- The column loop of `displayMatrix`: while `col < numberOfMatrixCols`,
take the next character (the blank once the string is exhausted), look
its glyph up, OR each row shifted by
`numberOfMatrixCols - charCurrentColumns - col` into the frame, and
advance `col` by the glyph's width. -/
def displayMatrixLoop : Nat → Nat → List Char → (Fin 8 → Nat) → Option (Fin 8 → Nat)
  | 0, _, _, _ => none
  | fuel + 1, col, display, frame =>
    if col < 8 then
      match display with
      | [] =>
        match searchForHexData ' ' with
        | .found md =>
          displayMatrixLoop fuel (col + md.cols) []
            (fun i => frame i |||
              shiftLeftOnMatrixBy ((8 : Int) - md.cols - col) (rowAt md i))
        | _ => none
      | c :: rest =>
        match searchForHexData c with
        | .found md =>
          displayMatrixLoop fuel (col + md.cols) rest
            (fun i => frame i |||
              shiftLeftOnMatrixBy ((8 : Int) - md.cols - col) (rowAt md i))
        | _ => none
    else some frame

/-- `displayMatrix`: zero the frame, perform the initial
`callMatrixObject(searchForHexData(current))` on the first character
(the blank for an empty string) — which crashes if the lookup fails —
then run the column loop. The final `logicalFrame()` transmission is
modelled separately (`physicalFrame`). -/
def displayMatrix (display : List Char) : Option (Fin 8 → Nat) :=
  let current : Char := match display with | [] => ' ' | c :: _ => c
  match searchForHexData current with
  | .found _ => displayMatrixLoop 16 0 display (fun _ => 0)
  | _ => none

/-- Width of a symbol's glyph, 0 when the lookup fails. -/
def glyphWidth (c : Char) : Nat :=
  match searchForHexData c with
  | .found md => md.cols
  | _ => 0

/-- Total width in columns of a display string's glyphs. -/
def totalWidth (display : List Char) : Nat := (display.map glyphWidth).sum

/-- The frame the specification's rendering formula prescribes: the
row-wise OR of each glyph's row bitmasks shifted by
`(8 − glyph_width − running_column)`, the running column starting at 0
and advancing by each consumed glyph's width. -/
def renderSpecRow : Nat → List Char → Fin 8 → Nat
  | _, [], _ => 0
  | col, c :: rest, i =>
    match searchForHexData c with
    | .found md =>
      shiftLeftOnMatrixBy ((8 : Int) - md.cols - col) (rowAt md i) |||
        renderSpecRow (col + md.cols) rest i
    | _ => 0

/-- The specification-side render of a whole display string. -/
def renderSpec (display : List Char) : Fin 8 → Nat :=
  renderSpecRow 0 display

/-- `logicalFrame` (lines 389–394): the physical frame transmitted to
the device, `warpFrame` applied to every logical row. -/
def physicalFrame (f : Fin 8 → Nat) : Fin 8 → Nat :=
  fun i => warpFrame (f i)

/-! ## Actuator (servo) controller -/

/-- One hardware-facing action of the actuator path: a `writeTo` of a
sysfs attribute (the written value is the decimal string the C passes,
nanoseconds for `period` and `duty_cycle`), a `sleepForMs`, or the
`clearDisplay` I2C wipe. -/
inductive ActuatorEvent where
  | writeTo : String → String → ActuatorEvent
  | sleepForMs : Nat → ActuatorEvent
  | clearDisplay : ActuatorEvent
  deriving DecidableEq, Repr

/-- `defaultRelease` (lines 215–221): the Mode-0 release profile. -/
def defaultRelease : List ActuatorEvent := [
  .writeTo "/sys/class/pwm/pwmchip3/pwm1/period" "20000000",
  .writeTo "/sys/class/pwm/pwmchip3/pwm1/enable" "1",
  .writeTo "/sys/class/pwm/pwmchip3/pwm1/duty_cycle" "2000000",
  .sleepForMs 1000,
  .writeTo "/sys/class/pwm/pwmchip3/pwm1/duty_cycle" "1000000"]

/-- `userBasedRelease` (lines 223–228): sleep `timeToSleep * 1000` ms,
then run the default profile. -/
def userBasedRelease (timeToSleep : Nat) : List ActuatorEvent :=
  .sleepForMs (timeToSleep * 1000) :: defaultRelease

/-- `mode2Release` (lines 278–284): the Mode-2 release profile. -/
def mode2Release : List ActuatorEvent := [
  .writeTo "/sys/class/pwm/pwmchip3/pwm1/period" "20000000",
  .writeTo "/sys/class/pwm/pwmchip3/pwm1/enable" "1",
  .writeTo "/sys/class/pwm/pwmchip3/pwm1/duty_cycle" "2000000",
  .sleepForMs 10000,
  .writeTo "/sys/class/pwm/pwmchip3/pwm1/duty_cycle" "1000000"]

/-- The flags the servo loop reads and writes: `stopServo` (the loop's
exit condition, the "stop requested" bit) and `servoTurnedOn` (the busy
bit the display loop reads). -/
structure ServoState where
  stopServo : Bool
  servoTurnedOn : Bool
  deriving DecidableEq, Repr

/-- `stop_stopServo` (lines 272–276): clear the busy flag, set the stop
flag (and join the servo thread). -/
def stop_stopServo (s : ServoState) : ServoState :=
  { s with servoTurnedOn := false, stopServo := true }

/-- The body of `turningServoMotor`'s `while` loop: dispatch on the mode
for a release profile (Mode 1 first reads a delay from stdin, modelled
as the `timeToSleep` argument; a mode outside 0–2 runs no profile), then
`clearDisplay()`, set `servoTurnedOn`, sleep 100 ms, and call
`stop_stopServo()`. Returns the successor state and the event trace. -/
def servoLoopBody (mode : Int) (timeToSleep : Nat) (s : ServoState) :
    ServoState × List ActuatorEvent :=
  let profile : List ActuatorEvent :=
    if mode = 0 then defaultRelease
    else if mode = 1 then userBasedRelease timeToSleep ++ [.sleepForMs 1000]
    else if mode = 2 then mode2Release
    else []
  (stop_stopServo { s with servoTurnedOn := true },
   profile ++ [.clearDisplay, .sleepForMs 100])

/-- `turningServoMotor` (lines 286–305): `while(!stopServo)` run the
body. Returns the final flag state and the number of body iterations
executed; `none` if `fuel` iterations did not reach the exit test. -/
def turningServoMotor (mode : Int) (timeToSleep : Nat) :
    Nat → ServoState → Option (ServoState × Nat)
  | 0, _ => none
  | fuel + 1, s =>
    if s.stopServo then some (s, 0)
    else
      match turningServoMotor mode timeToSleep fuel
          (servoLoopBody mode timeToSleep s).1 with
      | some (s', n) => some (s', n + 1)
      | none => none

/-- The actuator-controller state `start_startServo` acts on: the two
flags plus the number of loop threads `pthread_create`d and not yet
joined (the C keeps only the latest handle in `threadServo`). -/
structure ServoCtl where
  liveLoops : Nat
  stopServo : Bool
  servoTurnedOn : Bool
  deriving DecidableEq, Repr

/-- `start_startServo` (lines 307–310): unconditionally clear the stop
flag and `pthread_create` a fresh `turningServoMotor` thread — the
source tests no Running/busy state before spawning. -/
def start_startServo (s : ServoCtl) : ServoCtl :=
  { s with stopServo := false, liveLoops := s.liveLoops + 1 }

/-! ## Button display loop (`displayButton`, lines 478–501)

The loop is driven by the sequence of levels that successive
`yellowButtonPressed()` calls read; the embedding keeps the mode
mutations, which are the only writes the loop makes to `mode` (the
`clearDisplay`, smiley and `displayMode` calls touch only the matrix).
The nested debounce busy-wait `while(yellowButtonPressed()){}` is
encoded by the `waiting` flag: one poll sample is consumed per
`yellowButtonPressed()` call, exactly as the C makes the calls. -/

/-- One automaton over the poll samples: `waiting = true` while inside
the busy-wait. `switchMode` fires when the busy-wait reads `false`,
matching the C order (debounce first, then `switchMode()`). The result
is `none` when the samples run out mid-busy-wait (the C would still be
spinning), and the mode reached when they run out at an outer poll
(the C loop exiting on `stopButton`). -/
def displayButtonAux : Int → Bool → List Bool → Option Int
  | mode, false, [] => some mode
  | _, true, [] => none
  | mode, false, b :: rest =>
    if b then displayButtonAux mode true rest
    else displayButtonAux mode false rest
  | mode, true, b :: rest =>
    if b then displayButtonAux mode true rest
    else displayButtonAux (switchMode mode) false rest

/-- `displayButton`: the loop starts outside the busy-wait. -/
def displayButton (mode : Int) (polls : List Bool) : Option Int :=
  displayButtonAux mode false polls

/-! ## Facts about the table scan -/

theorem scanAux_found_mem {c : Char} {md : matrixData} :
    ∀ {l : List matrixData}, scanAux c l = .found md → md ∈ l ∧ md.digit = c := by
  intro l
  induction l with
  | nil => intro h; simp [scanAux] at h
  | cons e rest ih =>
    intro h
    by_cases h0 : e.digit = Char.ofNat 0
    · simp [scanAux, h0] at h
    · by_cases hc : e.digit = c
      · simp only [scanAux, if_neg h0, if_pos hc] at h
        obtain rfl : e = md := by injection h
        exact ⟨List.mem_cons_self e rest, hc⟩
      · simp only [scanAux, if_neg h0, if_neg hc] at h
        obtain ⟨hm, hd⟩ := ih h
        exact ⟨List.mem_cons_of_mem _ hm, hd⟩

theorem scanAux_present {c : Char} :
    ∀ {l : List matrixData}, (∀ e ∈ l, e.digit ≠ Char.ofNat 0) →
      (∃ e ∈ l, e.digit = c) →
      ∃ md, scanAux c l = .found md ∧ md.digit = c ∧ md ∈ l := by
  intro l
  induction l with
  | nil => intro _ h; simp at h
  | cons e rest ih =>
    intro h0 hex
    have he0 : e.digit ≠ Char.ofNat 0 := h0 e (List.mem_cons_self e rest)
    by_cases hc : e.digit = c
    · exact ⟨e, by simp only [scanAux, if_neg he0, if_pos hc], hc,
        List.mem_cons_self e rest⟩
    · obtain ⟨e', he', hd'⟩ := hex
      rcases List.mem_cons.mp he' with rfl | hmem
      · exact absurd hd' hc
      · obtain ⟨md, hs, hdig, hm⟩ :=
          ih (fun x hx => h0 x (List.mem_cons_of_mem _ hx)) ⟨e', hmem, hd'⟩
        exact ⟨md, by simp only [scanAux, if_neg he0, if_neg hc]; exact hs, hdig,
          List.mem_cons_of_mem _ hm⟩

theorem scanAux_absent {c : Char} :
    ∀ {l : List matrixData}, (∀ e ∈ l, e.digit ≠ Char.ofNat 0) →
      (∀ e ∈ l, e.digit ≠ c) → scanAux c l = .outOfBounds := by
  intro l
  induction l with
  | nil => intro _ _; rfl
  | cons e rest ih =>
    intro h0 hc
    have he0 : e.digit ≠ Char.ofNat 0 := h0 e (List.mem_cons_self e rest)
    have hec : e.digit ≠ c := hc e (List.mem_cons_self e rest)
    simp only [scanAux, if_neg he0, if_neg hec]
    exact ih (fun x hx => h0 x (List.mem_cons_of_mem _ hx))
      (fun x hx => hc x (List.mem_cons_of_mem _ hx))

theorem scanAux_sentinel_mem {c : Char} :
    ∀ {l : List matrixData}, scanAux c l = .sentinel →
      ∃ e ∈ l, e.digit = Char.ofNat 0 := by
  intro l
  induction l with
  | nil => intro h; simp [scanAux] at h
  | cons e rest ih =>
    intro h
    by_cases h0 : e.digit = Char.ofNat 0
    · exact ⟨e, List.mem_cons_self e rest, h0⟩
    · by_cases hc : e.digit = c
      · simp only [scanAux, if_neg h0, if_pos hc] at h
        exact absurd h (by simp)
      · simp only [scanAux, if_neg h0, if_neg hc] at h
        obtain ⟨x, hx, hd⟩ := ih h
        exact ⟨x, List.mem_cons_of_mem _ hx, hd⟩

/-- No entry of the glyph table carries the `EMPTY` (NUL) symbol. -/
theorem matrix_no_sentinel : ∀ e ∈ matrix, e.digit ≠ Char.ofNat 0 := by decide

/-- Every glyph of the table is at least one column wide. -/
theorem matrix_cols_pos : ∀ e ∈ matrix, 1 ≤ e.cols := by decide

theorem searchForHexData_found {c : Char} (h : inTable c) :
    ∃ md, searchForHexData c = .found md ∧ md.digit = c ∧ md ∈ matrix := by
  obtain ⟨e, he, hd⟩ := h
  exact scanAux_present matrix_no_sentinel ⟨e, he, hd⟩

theorem searchForHexData_absent {c : Char} (h : ¬ inTable c) :
    searchForHexData c = .outOfBounds := by
  refine scanAux_absent matrix_no_sentinel ?_
  intro e he hd
  exact h ⟨e, he, hd⟩

/-! ## Facts about the renderer loop -/

/-- The glyph-table entry of the blank symbol. -/
def blankGlyph : matrixData := ⟨' ', [0x00, 0x00, 0x00, 0x00, 0x00, 0x00, 0x00, 0x00], 4⟩

theorem search_blank : searchForHexData ' ' = .found blankGlyph := by decide

theorem rowAt_blankGlyph (i : Fin 8) : rowAt blankGlyph i = 0 := by
  rcases i with ⟨v, hv⟩
  interval_cases v <;> rfl

theorem shiftLeftOnMatrixBy_zero (s : Int) : shiftLeftOnMatrixBy s 0 = 0 := by
  unfold shiftLeftOnMatrixBy
  split <;> simp

/-- Once the display string is exhausted the loop keeps ORing the blank
glyph's all-zero rows into the frame, leaving it unchanged, and exits
once the column counter reaches 8. -/
theorem displayMatrixLoop_nil :
    ∀ (fuel col : Nat) (frame : Fin 8 → Nat),
      1 ≤ fuel → 12 ≤ 4 * fuel + col →
      displayMatrixLoop fuel col [] frame = some frame := by
  intro fuel
  induction fuel with
  | zero => intro col frame h1 _; omega
  | succ f ih =>
    intro col frame _ h2
    by_cases hc : col < 8
    · have hfr : (fun i => frame i |||
          shiftLeftOnMatrixBy ((8 : Int) - blankGlyph.cols - col) (rowAt blankGlyph i))
          = frame := by
        funext i
        rw [rowAt_blankGlyph, shiftLeftOnMatrixBy_zero, Nat.or_zero]
      simp only [displayMatrixLoop, if_pos hc, search_blank]
      rw [hfr]
      have hbc : blankGlyph.cols = 4 := rfl
      exact ih (col + blankGlyph.cols) frame (by omega) (by omega)
    · simp [displayMatrixLoop, hc]

/-- Every symbol of the table has a glyph at least one column wide. -/
theorem glyphWidth_pos {c : Char} (h : inTable c) : 1 ≤ glyphWidth c := by
  obtain ⟨md, hmd, _, hmem⟩ := searchForHexData_found h
  unfold glyphWidth
  rw [hmd]
  exact matrix_cols_pos md hmem

theorem length_le_totalWidth :
    ∀ display : List Char, (∀ c ∈ display, inTable c) →
      display.length ≤ totalWidth display := by
  intro display
  induction display with
  | nil => intro _; simp [totalWidth]
  | cons c rest ih =>
    intro hin
    have h1 : 1 ≤ glyphWidth c := glyphWidth_pos (hin c (List.mem_cons_self c rest))
    have h2 := ih (fun x hx => hin x (List.mem_cons_of_mem _ hx))
    simp only [totalWidth, List.map_cons, List.sum_cons, List.length_cons]
    simp only [totalWidth] at h2
    omega

/-- The column loop computes, row by row, the OR of the incoming frame
with the specification formula's rows from the current column on. -/
theorem displayMatrixLoop_spec :
    ∀ (display : List Char) (col : Nat) (frame : Fin 8 → Nat) (fuel : Nat),
      (∀ c ∈ display, inTable c) →
      col + totalWidth display ≤ 8 →
      display.length + 3 ≤ fuel →
      displayMatrixLoop fuel col display frame =
        some (fun i => frame i ||| renderSpecRow col display i) := by
  intro display
  induction display with
  | nil =>
    intro col frame fuel _ _ hf
    rw [displayMatrixLoop_nil fuel col frame (by omega) (by omega)]
    congr 1
    funext i
    simp [renderSpecRow]
  | cons c rest ih =>
    intro col frame fuel hin hw hf
    obtain ⟨md, hmd, hdig, hmem⟩ :=
      searchForHexData_found (hin c (List.mem_cons_self c rest))
    have hcols : 1 ≤ md.cols := matrix_cols_pos md hmem
    have hwc : glyphWidth c = md.cols := by unfold glyphWidth; rw [hmd]
    have htw : totalWidth (c :: rest) = md.cols + totalWidth rest := by
      simp only [totalWidth, List.map_cons, List.sum_cons, hwc]
    have hcol : col < 8 := by omega
    obtain ⟨f, rfl⟩ : ∃ f, fuel = f + 1 := ⟨fuel - 1, by omega⟩
    simp only [displayMatrixLoop, if_pos hcol, hmd]
    rw [ih (col + md.cols) _ f (fun x hx => hin x (List.mem_cons_of_mem _ hx))
      (by omega) (by simpa using hf)]
    congr 1
    funext i
    simp only [renderSpecRow, hmd, Nat.or_assoc]

/-! ## Facts about the button loop automaton -/

theorem displayButtonAux_idle (m : Int) :
    ∀ M : Nat, displayButtonAux m false (List.replicate M false) = some m := by
  intro M
  induction M with
  | zero => rfl
  | succ k ih => simpa [List.replicate_succ, displayButtonAux] using ih

theorem displayButtonAux_wait (m : Int) :
    ∀ (K : Nat) (rest : List Bool),
      displayButtonAux m true (List.replicate K true ++ false :: rest) =
        displayButtonAux (switchMode m) false rest := by
  intro K
  induction K with
  | zero => intro rest; simp [displayButtonAux]
  | succ k ih => intro rest; simpa [List.replicate_succ, displayButtonAux] using ih rest

theorem switchMode_mem {m : Int} (h : m = 0 ∨ m = 1 ∨ m = 2) :
    switchMode m = 0 ∨ switchMode m = 1 ∨ switchMode m = 2 := by
  rcases h with rfl | rfl | rfl <;> decide

theorem displayButtonAux_preserves :
    ∀ (polls : List Bool) (m : Int) (w : Bool) (m' : Int),
      displayButtonAux m w polls = some m' →
      (m = 0 ∨ m = 1 ∨ m = 2) → (m' = 0 ∨ m' = 1 ∨ m' = 2) := by
  intro polls
  induction polls with
  | nil =>
    intro m w m' h hm
    cases w
    · simp only [displayButtonAux, Option.some.injEq] at h
      exact h ▸ hm
    · simp [displayButtonAux] at h
  | cons b rest ih =>
    intro m w m' h hm
    cases w <;> cases b <;> simp only [displayButtonAux, if_true, if_false,
      Bool.false_eq_true, ite_false, ite_true] at h
    · exact ih m false m' h hm
    · exact ih m true m' h hm
    · exact ih (switchMode m) false m' h (switchMode_mem hm)
    · exact ih m true m' h hm

/-! ## Claim theorems -/

/-- C1: for every display string whose symbols all appear in the glyph
table and whose total glyph width is at most 8 columns, `displayMatrix`
produces the logical frame given by the row-wise OR of each glyph's row
bitmasks shifted by `(8 − glyph_width − running_column)`, the running
column starting at 0 and advancing by each consumed glyph's width
(`renderSpec`); in particular, on the empty string it produces the
all-zero frame. -/
theorem render_matches_shifted_or :
    (∀ display : List Char, (∀ c ∈ display, inTable c) →
      totalWidth display ≤ 8 →
      displayMatrix display = some (renderSpec display)) ∧
    displayMatrix [] = some (fun _ => 0) := by
  have main : ∀ display : List Char, (∀ c ∈ display, inTable c) →
      totalWidth display ≤ 8 →
      displayMatrix display = some (renderSpec display) := by
    intro display hin hw
    have hlen := length_le_totalWidth display hin
    cases display with
    | nil =>
      simp only [displayMatrix, search_blank]
      rw [displayMatrixLoop_nil 16 0 _ (by omega) (by omega)]
      congr 1
    | cons c rest =>
      obtain ⟨md, hmd, _, _⟩ :=
        searchForHexData_found (hin c (List.mem_cons_self c rest))
      simp only [displayMatrix, hmd]
      rw [displayMatrixLoop_spec (c :: rest) 0 _ 16 hin (by omega) (by omega)]
      congr 1
      funext i
      simp [renderSpec]
  refine ⟨main, ?_⟩
  rw [main [] (by simp) (by simp [totalWidth])]
  congr 1

theorem render_matches_shifted_or_witness :
    displayMatrix [' ', '9'] = some (renderSpec [' ', '9']) :=
  render_matches_shifted_or.1 [' ', '9'] (by decide) (by decide)

set_option maxRecDepth 8000

/-- C2: the physical-row transform `warpFrame` is the 8-bit
rotate-right-by-one — on every byte it equals `b / 2 + (b % 2) * 128`,
the rotate-left-by-one inverts it, hence the inverse rotation applied to
a physical frame recovers the logical frame row by row — and it maps
0b00000001 to 0b10000000 and 0b00000000 to 0b00000000. -/
theorem warpFrame_rotate_right :
    (∀ b, b < 256 → warpFrame b = b / 2 + b % 2 * 128) ∧
    (∀ b, b < 256 → rotateLeft8 (warpFrame b) = b) ∧
    (∀ f : Fin 8 → Nat, (∀ i, f i < 256) →
      (fun i => rotateLeft8 (physicalFrame f i)) = f) ∧
    warpFrame 1 = 128 ∧ warpFrame 0 = 0 := by
  have h2 : ∀ b, b < 256 → rotateLeft8 (warpFrame b) = b := by decide
  refine ⟨by decide, h2, ?_, by decide, by decide⟩
  intro f hf
  funext i
  exact h2 (f i) (hf i)

theorem warpFrame_rotate_right_witness :
    rotateLeft8 (warpFrame 150) = 150 :=
  warpFrame_rotate_right.2.1 150 (by decide)

/-- C3: on each of the three mode values, applying `switchMode` three
times is the identity, the single step following the cycle 0→1→2→0. -/
theorem switchMode_triple_identity (m : Int) (h : m = 0 ∨ m = 1 ∨ m = 2) :
    switchMode (switchMode (switchMode m)) = m := by
  rcases h with rfl | rfl | rfl <;> decide

theorem switchMode_triple_identity_witness :
    switchMode (switchMode (switchMode 1)) = 1 :=
  switchMode_triple_identity 1 (Or.inr (Or.inl rfl))

/-- C4: for every mode, once `start_startServo` has cleared the stop
flag the servo loop executes its body exactly once and stops: the body
ends by calling `stop_stopServo`, so the loop exits after a single
release cycle with the stop flag set and the busy flag cleared (Idle). -/
theorem turningServoMotor_single_cycle (mode : Int) (timeToSleep : Nat)
    (busy : Bool) (fuel : Nat) (h : 2 ≤ fuel) :
    turningServoMotor mode timeToSleep fuel ⟨false, busy⟩ =
      some (⟨true, false⟩, 1) := by
  obtain ⟨k, rfl⟩ : ∃ k, fuel = k + 2 := ⟨fuel - 2, by omega⟩
  rfl

theorem turningServoMotor_single_cycle_witness :
    turningServoMotor 0 0 2 ⟨false, false⟩ = some (⟨true, false⟩, 1) :=
  turningServoMotor_single_cycle 0 0 false 2 (by decide)

/-- C5: the claim says a `start()` during a Running cycle is rejected or
a no-op; the code is not — `start_startServo` unconditionally clears the
stop flag and spawns a fresh loop thread, so from a Running state (one
live loop thread, stop flag clear) it yields a second concurrent cycle
and a changed state. -/
theorem start_startServo_spawns_second_cycle :
    start_startServo ⟨1, false, false⟩ = ⟨2, false, false⟩ ∧
    start_startServo ⟨1, false, false⟩ ≠ ⟨1, false, false⟩ :=
  ⟨rfl, by decide⟩

/-- C6: the Mode-0 release profile writes period 20000000 ns, enable 1,
duty_cycle 2000000 ns (hold), sleeps 1 s, and writes duty_cycle
1000000 ns (release); the Mode-2 profile is the identical sequence with
the 1 s sleep replaced by a 10 s sleep. -/
theorem release_profiles_traces :
    defaultRelease = [
      .writeTo "/sys/class/pwm/pwmchip3/pwm1/period" "20000000",
      .writeTo "/sys/class/pwm/pwmchip3/pwm1/enable" "1",
      .writeTo "/sys/class/pwm/pwmchip3/pwm1/duty_cycle" "2000000",
      .sleepForMs 1000,
      .writeTo "/sys/class/pwm/pwmchip3/pwm1/duty_cycle" "1000000"] ∧
    mode2Release = [
      .writeTo "/sys/class/pwm/pwmchip3/pwm1/period" "20000000",
      .writeTo "/sys/class/pwm/pwmchip3/pwm1/enable" "1",
      .writeTo "/sys/class/pwm/pwmchip3/pwm1/duty_cycle" "2000000",
      .sleepForMs 10000,
      .writeTo "/sys/class/pwm/pwmchip3/pwm1/duty_cycle" "1000000"] ∧
    mode2Release = defaultRelease.map
      (fun e => if e = .sleepForMs 1000 then .sleepForMs 10000 else e) :=
  ⟨rfl, rfl, by decide⟩

/-- C7: glyph lookup of any symbol present in the table returns that
symbol's entry; lookup of any symbol absent from it produces the
signalled error of the bounds-checked embedding (never an entry, and not
a silent blank). -/
theorem searchForHexData_total_on_table :
    (∀ c, inTable c → ∃ md, searchForHexData c = .found md ∧
      md.digit = c ∧ md ∈ matrix) ∧
    (∀ c, ¬ inTable c → searchForHexData c = .outOfBounds) :=
  ⟨fun _ h => searchForHexData_found h, fun _ h => searchForHexData_absent h⟩

theorem searchForHexData_total_on_table_witness :
    searchForHexData 'x' = .outOfBounds :=
  searchForHexData_total_on_table.2 'x' (by decide)

/-- C8: in the display loop, a press whose level reads true for N ≥ 1
consecutive polls before returning to false advances the mode exactly
once, not N times: after the first true the loop busy-polls the level
until it reads false and only then applies `switchMode` a single time. -/
theorem displayButton_debounce_once (m : Int) (N M : Nat) (h : 1 ≤ N) :
    displayButton m (List.replicate N true ++ false :: List.replicate M false) =
      some (switchMode m) := by
  obtain ⟨k, rfl⟩ : ∃ k, N = k + 1 := ⟨N - 1, by omega⟩
  unfold displayButton
  rw [List.replicate_succ, List.cons_append]
  simp only [displayButtonAux, if_true]
  rw [displayButtonAux_wait, displayButtonAux_idle]

theorem displayButton_debounce_once_witness :
    displayButton 0 (List.replicate 3 true ++ false :: List.replicate 2 false) =
      some (switchMode 0) :=
  displayButton_debounce_once 0 3 2 (by decide)

/-- C9: the glyph-table scan's loop guard stops only on an entry whose
symbol is the NUL character, but none of the 13 entries carries it, so
for a symbol absent from the table the scan walks past the last valid
index: it never stops on a sentinel, and the bounds-checked embedding
signals an out-of-bounds read instead of returning a table entry. -/
theorem glyph_scan_out_of_bounds :
    (∀ e ∈ matrix, e.digit ≠ Char.ofNat 0) ∧
    matrix.length = 13 ∧
    (∀ c, scanAux c matrix ≠ .sentinel) ∧
    (∀ c, ¬ inTable c → scanAux c matrix = .outOfBounds) := by
  refine ⟨matrix_no_sentinel, rfl, ?_, fun c h => searchForHexData_absent h⟩
  intro c hs
  obtain ⟨e, he, hd⟩ := scanAux_sentinel_mem hs
  exact matrix_no_sentinel e he hd

theorem glyph_scan_out_of_bounds_witness :
    scanAux 'Q' matrix = .outOfBounds :=
  glyph_scan_out_of_bounds.2.2.2 'Q' (by decide)

/-- C10: the mode is initialized to 0; `switchMode` maps 0→1, 1→2, 2→0,
leaves any other value unchanged, and preserves membership in
{0, 1, 2}; the display loop — the only operation that writes `mode` —
also preserves that membership. -/
theorem mode_in_range_invariant :
    modeInit = 0 ∧
    switchMode 0 = 1 ∧ switchMode 1 = 2 ∧ switchMode 2 = 0 ∧
    (∀ m : Int, ¬(m = 0 ∨ m = 1 ∨ m = 2) → switchMode m = m) ∧
    (∀ m : Int, (m = 0 ∨ m = 1 ∨ m = 2) →
      (switchMode m = 0 ∨ switchMode m = 1 ∨ switchMode m = 2)) ∧
    (∀ (m m' : Int) (polls : List Bool), displayButton m polls = some m' →
      (m = 0 ∨ m = 1 ∨ m = 2) → (m' = 0 ∨ m' = 1 ∨ m' = 2)) := by
  refine ⟨rfl, by decide, by decide, by decide, ?_, fun m h => switchMode_mem h,
    fun m m' polls h hm => displayButtonAux_preserves polls m false m' h hm⟩
  intro m hm
  push_neg at hm
  obtain ⟨h0, h1, h2⟩ := hm
  simp [switchMode, h0, h1, h2]

theorem mode_in_range_invariant_witness :
    switchMode 5 = 5 :=
  mode_in_range_invariant.2.2.2.2.1 5 (by decide)

end FishFeeder
